import Mathlib

/-!
Verification of the conversation-state / request-handling logic of the
FastAPI + Groq chatbot backend (`src/backend/app.py`).

The embedding is shallow: the global `conversations` dictionary becomes an
explicit association list threaded through every operation, the streaming
Groq completion becomes an oracle value (either a finite list of optional
text fragments or a failure message), and raised `HTTPException`s /
pydantic `ValidationError`s become constructors of a `RequestOutcome` sum.
-/

/-- Message record: one `{"role": ..., "content": ...}` dictionary stored in
`Conversation.messages` in `app.py`. -/
structure Message where
  role : String
  content : String
deriving DecidableEq, Repr

/-- Conversation record mirroring the `Conversation` class of `app.py`
(lines 78-84): an ordered message history plus the `active` flag. -/
structure Conversation where
  messages : List Message
  active : Bool
deriving DecidableEq, Repr

/-- The system prompt inserted by `Conversation.__init__` (app.py line 82). -/
def systemPrompt : Message :=
  { role := "system", content := "You are a useful AI assistant." }

/-- Embedding of `Conversation.__init__`: one system entry, `active = True`. -/
def Conversation.init : Conversation :=
  { messages := [systemPrompt], active := true }

/-- The global `conversations : Dict[str, Conversation]` of `app.py`,
modelled as an association list in insertion order (Python dicts preserve
insertion order and have unique keys). -/
abbrev Store := List (String × Conversation)

/-- Dictionary lookup `conversations[conversation_id]` / the membership test
`conversation_id not in conversations`. -/
def Store.find : Store → String → Option Conversation
  | [], _ => none
  | (k', c') :: rest, k => if k' = k then some c' else Store.find rest k

/-- Dictionary write `conversations[conversation_id] = c`: overwrites in
place if the key exists, otherwise appends at the end (insertion order). -/
def Store.set : Store → String → Conversation → Store
  | [], k, c => [(k, c)]
  | (k', c') :: rest, k, c =>
      if k' = k then (k, c) :: rest else (k', c') :: Store.set rest k c

/-- Validated request body, mirroring the pydantic model `UserInput`
(app.py lines 68-71): `message : str`, `role : str = "user"`,
`conversation_id : str`. -/
structure UserInput where
  message : String
  role : String
  conversation_id : String
deriving DecidableEq, Repr

/-- A JSON field value as far as pydantic string validation distinguishes
them: a string, or anything that is not a string. -/
inductive JValue where
  | jstr (s : String)
  | jother
deriving DecidableEq, Repr

/-- Raw inbound request body before pydantic validation: each of the three
fields of `UserInput` is either absent or carries a JSON value. -/
structure RawRequest where
  message : Option JValue
  role : Option JValue
  conversation_id : Option JValue
deriving DecidableEq, Repr

/-- Embedding of pydantic validation of `UserInput`: `message` and
`conversation_id` are required strings, `role` is an optional string
defaulting to `"user"`; anything else is a `ValidationError`. -/
def parseUserInput (r : RawRequest) : Except Unit UserInput :=
  match r.message, r.role, r.conversation_id with
  | some (JValue.jstr m), none, some (JValue.jstr cid) =>
      Except.ok { message := m, role := "user", conversation_id := cid }
  | some (JValue.jstr m), some (JValue.jstr ro), some (JValue.jstr cid) =>
      Except.ok { message := m, role := ro, conversation_id := cid }
  | _, _, _ => Except.error ()

/-- Behaviour of the external Groq completion call for one request: either a
finite stream of chunks, each carrying `chunk.choices[0].delta.content`
(which may be `None`), or a failure described by the exception message. -/
abbrev Upstream := Except String (List (Option String))

/-- The fragment-concatenation loop of `query_groq_api` (app.py lines
116-120): `response = ""` then `response += chunk... or ""` per chunk. -/
def assembleResponse (frags : List (Option String)) : String :=
  frags.foldl (fun acc c => acc ++ c.getD "") ""

/-- Plain left-to-right concatenation of a list of strings; used to state
what `assembleResponse` computes. -/
def concatStrings : List String → String
  | [] => ""
  | s :: rest => s ++ concatStrings rest

/-- Starlette renders `str(HTTPException(code, detail))` as
`"{code}: {detail}"`; this is what `str(e)` yields in `chat`'s
`except` clause when `e` is the `HTTPException` raised by
`query_groq_api`. -/
def strHTTPException (status : Nat) (detail : String) : String :=
  toString status ++ ": " ++ detail

/-- Embedding of `query_groq_api` (app.py lines 107-124): on a successful
stream, the concatenation of the fragments; on upstream failure, an
`HTTPException(500, "Error with Groq API: " + str(e))`. -/
def query_groq_api (u : Upstream) : Except (Nat × String) String :=
  match u with
  | Except.ok frags => Except.ok (assembleResponse frags)
  | Except.error e => Except.error (500, "Error with Groq API: " ++ e)

/-- Embedding of `get_or_create_conversation` (app.py lines 131-136),
returning the conversation together with the updated store. -/
def get_or_create_conversation (store : Store) (conversation_id : String) :
    Conversation × Store :=
  match Store.find store conversation_id with
  | none => (Conversation.init, Store.set store conversation_id Conversation.init)
  | some c => (c, store)

/-- Result of one request to the `/chat/` endpoint: a pydantic
`ValidationError` (422), a raised `HTTPException` with status code and
detail, or the success body `{response, conversation_id}`. -/
inductive RequestOutcome where
  | validationError
  | httpError (status : Nat) (detail : String)
  | success (response : String) (conversation_id : String)
deriving DecidableEq, Repr

/-- Embedding of the `chat` endpoint body (app.py lines 143-179) after
validation: resolve the session, reject inactive sessions with a 400,
append the user turn, call the upstream, and on success append the
assistant turn. The outer `except` re-raises the upstream
`HTTPException` as `HTTPException(500, str(e))`. -/
def chat (store : Store) (inp : UserInput) (u : Upstream) :
    RequestOutcome × Store :=
  let conversation := (get_or_create_conversation store inp.conversation_id).1
  let store1 := (get_or_create_conversation store inp.conversation_id).2
  if conversation.active = false then
    (RequestOutcome.httpError 400
      "The chat session has ended. Please start a new session.", store1)
  else
    let conv2 : Conversation :=
      ⟨conversation.messages ++ [⟨inp.role, inp.message⟩], conversation.active⟩
    let store2 := Store.set store1 inp.conversation_id conv2
    match query_groq_api u with
    | Except.error e =>
        (RequestOutcome.httpError 500 (strHTTPException e.1 e.2), store2)
    | Except.ok response =>
        (RequestOutcome.success response inp.conversation_id,
         Store.set store2 inp.conversation_id
           ⟨conv2.messages ++ [⟨"assistant", response⟩], conv2.active⟩)

/-- One full request/response cycle of `POST /chat/`: pydantic validation
followed by the `chat` handler. On a `ValidationError` the handler never
runs, so the store is untouched. -/
def handleRequest (store : Store) (r : RawRequest) (u : Upstream) :
    RequestOutcome × Store :=
  match parseUserInput r with
  | Except.error _ => (RequestOutcome.validationError, store)
  | Except.ok inp => chat store inp u

/-- States of the global `conversations` dictionary reachable from process
start (empty dictionary) by any sequence of inbound requests with any
upstream behaviours. -/
inductive Reachable : Store → Prop where
  | init : Reachable []
  | step (r : RawRequest) (u : Upstream) {s : Store} :
      Reachable s → Reachable (handleRequest s r u).2

/-- Writing a key makes it found with exactly the written value. -/
lemma Store.find_set_self (s : Store) (k : String) (c : Conversation) :
    Store.find (Store.set s k c) k = some c := by
  induction s with
  | nil => simp [Store.set, Store.find]
  | cons p rest ih =>
      obtain ⟨k', c'⟩ := p
      by_cases h : k' = k
      · simp [Store.set, Store.find, h]
      · simp [Store.set, Store.find, h, ih]

/-- Writing one key leaves lookups of every other key unchanged. -/
lemma Store.find_set_ne (s : Store) {k k' : String} (c : Conversation)
    (h : k' ≠ k) :
    Store.find (Store.set s k c) k' = Store.find s k' := by
  induction s with
  | nil =>
      simp only [Store.set, Store.find]
      rw [if_neg (fun he => h (Eq.symm he))]
  | cons p rest ih =>
      obtain ⟨a, b⟩ := p
      by_cases ha : a = k
      · subst ha
        simp only [Store.set, if_pos rfl, Store.find]
        rw [if_neg (fun he => h (Eq.symm he)), if_neg (fun he => h (Eq.symm he))]
      · simp only [Store.set, if_neg ha, Store.find]
        by_cases hb : a = k'
        · simp [hb]
        · simp [hb, ih]

/-- Every entry of the updated store is an old entry or the written pair. -/
lemma Store.mem_set {s : Store} {k : String} {c : Conversation}
    {p : String × Conversation} (hp : p ∈ Store.set s k c) :
    p ∈ s ∨ p = (k, c) := by
  induction s with
  | nil =>
      simp only [Store.set, List.mem_singleton] at hp
      exact Or.inr hp
  | cons q rest ih =>
      obtain ⟨a, b⟩ := q
      by_cases ha : a = k
      · simp only [Store.set, if_pos ha, List.mem_cons] at hp
        rcases hp with hp | hp
        · exact Or.inr hp
        · exact Or.inl (List.mem_cons_of_mem _ hp)
      · simp only [Store.set, if_neg ha, List.mem_cons] at hp
        rcases hp with hp | hp
        · exact Or.inl (by simp [hp])
        · rcases ih hp with h | h
          · exact Or.inl (List.mem_cons_of_mem _ h)
          · exact Or.inr h

/-- A successful lookup exhibits a store entry. -/
lemma Store.find_mem {s : Store} {k : String} {c : Conversation}
    (h : Store.find s k = some c) : (k, c) ∈ s := by
  induction s with
  | nil => simp [Store.find] at h
  | cons q rest ih =>
      obtain ⟨a, b⟩ := q
      by_cases ha : a = k
      · subst ha
        simp only [Store.find, if_true, eq_self_iff_true, if_pos,
          Option.some.injEq] at h
        simp [h]
      · simp only [Store.find, if_neg ha] at h
        exact List.mem_cons_of_mem _ (ih h)

/-- Lookup after `get_or_create_conversation` hit. -/
lemma get_or_create_found {store : Store} {k : String} {c : Conversation}
    (h : Store.find store k = some c) :
    get_or_create_conversation store k = (c, store) := by
  unfold get_or_create_conversation
  rw [h]

/-- Lookup after `get_or_create_conversation` miss. -/
lemma get_or_create_missing {store : Store} {k : String}
    (h : Store.find store k = none) :
    get_or_create_conversation store k =
      (Conversation.init, Store.set store k Conversation.init) := by
  unfold get_or_create_conversation
  rw [h]

/-- The accumulator of the fragment loop factors out on the left. -/
lemma foldl_assemble (frags : List (Option String)) (acc : String) :
    frags.foldl (fun a c => a ++ c.getD "") acc =
      acc ++ concatStrings (frags.map fun o => o.getD "") := by
  induction frags generalizing acc with
  | nil => simp [concatStrings]
  | cons c rest ih =>
      simp only [List.foldl_cons, List.map_cons, concatStrings, ih,
        String.append_assoc]

/-- The assembled response is the in-order concatenation of the fragment
contents, with absent (`None`) contents contributing the empty string. -/
lemma assembleResponse_eq (frags : List (Option String)) :
    assembleResponse frags =
      concatStrings (frags.map fun o => o.getD "") := by
  unfold assembleResponse
  rw [foldl_assemble]
  exact String.empty_append _

/-- Dropping absent fragments does not change the concatenation. -/
lemma concatStrings_filterMap (frags : List (Option String)) :
    concatStrings (frags.map fun o => o.getD "") =
      concatStrings (frags.filterMap id) := by
  induction frags with
  | nil => rfl
  | cons c rest ih =>
      cases c with
      | none =>
          simp only [List.map_cons, List.filterMap_cons, concatStrings,
            Option.getD_none, id]
          rw [String.empty_append, ih]
      | some s =>
          simp only [List.map_cons, List.filterMap_cons, concatStrings,
            Option.getD_some, id]
          rw [ih]

/-- Effect of one successful `chat` call on an existing active session:
the stored history gains the user turn followed by the assistant turn. -/
lemma chat_step_find (store : Store) (key m r : String) (msgs : List Message)
    (frags : List (Option String))
    (h : Store.find store key = some ⟨msgs, true⟩) :
    Store.find (chat store ⟨m, r, key⟩ (Except.ok frags)).2 key =
      some ⟨msgs ++ [⟨r, m⟩, ⟨"assistant", assembleResponse frags⟩], true⟩ := by
  simp [chat, get_or_create_found h, query_groq_api, Store.find_set_self]

/-- Effect of one successful `chat` call on an unseen session key: the
session is created and its history is the system prompt, the user turn,
then the assistant turn. -/
lemma chat_create_find (store : Store) (key m r : String)
    (frags : List (Option String))
    (h : Store.find store key = none) :
    Store.find (chat store ⟨m, r, key⟩ (Except.ok frags)).2 key =
      some ⟨[systemPrompt, ⟨r, m⟩, ⟨"assistant", assembleResponse frags⟩],
        true⟩ := by
  simp [chat, get_or_create_missing h, Conversation.init, query_groq_api,
    Store.find_set_self]

/-- One scripted `submitMessage` call: the request's role and message plus
the fragment stream the upstream answers with. -/
structure CallSpec where
  role : String
  message : String
  fragments : List (Option String)
deriving DecidableEq, Repr

/-- The pair of history entries one successful call appends: the submitted
message with the request's role, then the assistant reply. -/
def turnOf (c : CallSpec) : List Message :=
  [⟨c.role, c.message⟩, ⟨"assistant", assembleResponse c.fragments⟩]

/-- The history entries appended by a list of successful calls, in order. -/
def turnsOf : List CallSpec → List Message
  | [] => []
  | c :: rest => turnOf c ++ turnsOf rest

/-- Run a sequence of `POST /chat/` requests against one session key, each
with a successful upstream stream, threading the store through. -/
def runCalls (store : Store) (key : String) (calls : List CallSpec) : Store :=
  calls.foldl (fun st c =>
    (chat st ⟨c.message, c.role, key⟩ (Except.ok c.fragments)).2) store

/-- Each successful call contributes exactly two history entries. -/
lemma turnsOf_length (calls : List CallSpec) :
    (turnsOf calls).length = 2 * calls.length := by
  induction calls with
  | nil => rfl
  | cons c rest ih =>
      simp only [turnsOf, turnOf, List.length_append, List.length_cons,
        List.length_nil, ih, List.length_cons]
      omega

/-- Folding successful calls over an existing active session appends the
user/assistant turns of each call, in call order. -/
lemma runCalls_loop (key : String) (calls : List CallSpec) :
    ∀ (store : Store) (msgs : List Message),
      Store.find store key = some ⟨msgs, true⟩ →
      Store.find (runCalls store key calls) key =
        some ⟨msgs ++ turnsOf calls, true⟩ := by
  induction calls with
  | nil =>
      intro store msgs h
      simpa [runCalls, turnsOf] using h
  | cons c rest ih =>
      intro store msgs h
      have hstep := chat_step_find store key c.message c.role msgs c.fragments h
      have hrest := ih (chat store ⟨c.message, c.role, key⟩
        (Except.ok c.fragments)).2 (msgs ++ turnOf c) (by simpa [turnOf] using hstep)
      simp only [runCalls, List.foldl_cons] at hrest ⊢
      simpa [turnsOf, List.append_assoc] using hrest

/-- A malformed `conversation_id` (absent, or present but not a string)
makes pydantic validation fail whatever the other fields hold. -/
lemma parse_error_of_bad_cid (r : RawRequest)
    (h : r.conversation_id = none ∨ r.conversation_id = some JValue.jother) :
    parseUserInput r = Except.error () := by
  obtain ⟨msg, ro, cid⟩ := r
  simp only at h
  rcases msg with _ | jm <;> rcases ro with _ | jr <;>
    rcases h with h | h <;> subst h <;>
    first
      | rfl
      | (rcases jm with ms | _ <;>
          first
            | rfl
            | (rcases jr with rs | _ <;> rfl))

/-- A request with a malformed `conversation_id` is answered with the
validation error and leaves the store untouched. -/
lemma handle_bad_cid (store : Store) (r : RawRequest) (u : Upstream)
    (h : r.conversation_id = none ∨ r.conversation_id = some JValue.jother) :
    handleRequest store r u = (RequestOutcome.validationError, store) := by
  unfold handleRequest
  rw [parse_error_of_bad_cid r h]

/-- Overwriting the same key twice keeps only the second write. -/
lemma Store.set_set (s : Store) (k : String) (a b : Conversation) :
    Store.set (Store.set s k a) k b = Store.set s k b := by
  induction s with
  | nil => simp [Store.set]
  | cons p rest ih =>
      obtain ⟨x, y⟩ := p
      by_cases hx : x = k
      · simp [Store.set, hx]
      · simp [Store.set, hx, ih]

/-- Per-conversation invariant: still active, and the history starts with
the creation-time system prompt. -/
def ConvOK (c : Conversation) : Prop :=
  c.active = true ∧ c.messages.head? = some systemPrompt

/-- Store-wide invariant: every stored conversation satisfies `ConvOK`. -/
def StoreOK (s : Store) : Prop := ∀ p ∈ s, ConvOK p.2

/-- Freshly created conversations satisfy the invariant. -/
lemma convOK_init : ConvOK Conversation.init := ⟨rfl, rfl⟩

/-- Appending never changes the head of a nonempty list. -/
lemma head_append_some {l l' : List Message} {a : Message}
    (h : l.head? = some a) : (l ++ l').head? = some a := by
  cases l <;> simp_all

/-- Appending history entries preserves the conversation invariant. -/
lemma convOK_append (c : Conversation) (l : List Message) (hc : ConvOK c) :
    ConvOK ⟨c.messages ++ l, c.active⟩ :=
  ⟨hc.1, head_append_some hc.2⟩

/-- Writing an invariant-respecting conversation preserves `StoreOK`. -/
lemma storeOK_set {s : Store} {k : String} {c : Conversation}
    (hs : StoreOK s) (hc : ConvOK c) : StoreOK (Store.set s k c) := by
  intro p hp
  rcases Store.mem_set hp with h | h
  · exact hs p h
  · rw [h]
    exact hc

/-- Shape of the store after one `chat` call: either it is unchanged, or
exactly the addressed conversation (the found one, or a fresh
`Conversation.init` on a miss) has a nonempty batch of entries appended,
with its `active` flag untouched. -/
lemma chat_store_shape (s : Store) (inp : UserInput) (u : Upstream) :
    ∃ c : Conversation,
      (Store.find s inp.conversation_id = some c ∨
        (Store.find s inp.conversation_id = none ∧ c = Conversation.init)) ∧
      ((chat s inp u).2 = s ∨
        ∃ l : List Message, l ≠ [] ∧
          (chat s inp u).2 =
            Store.set s inp.conversation_id ⟨c.messages ++ l, c.active⟩) := by
  cases hg : Store.find s inp.conversation_id with
  | some c0 =>
      refine ⟨c0, Or.inl rfl, ?_⟩
      cases hA : c0.active with
      | false =>
          left
          simp [chat, get_or_create_found hg, hA]
      | true =>
          right
          cases u with
          | error e =>
              refine ⟨[⟨inp.role, inp.message⟩], by simp, ?_⟩
              simp [chat, get_or_create_found hg, hA, query_groq_api]
          | ok frags =>
              refine ⟨[⟨inp.role, inp.message⟩,
                ⟨"assistant", assembleResponse frags⟩], by simp, ?_⟩
              simp [chat, get_or_create_found hg, hA, query_groq_api,
                Store.set_set]
  | none =>
      refine ⟨Conversation.init, Or.inr ⟨rfl, rfl⟩, Or.inr ?_⟩
      cases u with
      | error e =>
          refine ⟨[⟨inp.role, inp.message⟩], by simp, ?_⟩
          simp [chat, get_or_create_missing hg, Conversation.init,
            query_groq_api, Store.set_set]
      | ok frags =>
          refine ⟨[⟨inp.role, inp.message⟩,
            ⟨"assistant", assembleResponse frags⟩], by simp, ?_⟩
          simp [chat, get_or_create_missing hg, Conversation.init,
            query_groq_api, Store.set_set]

/-- One `chat` call preserves the store-wide invariant. -/
lemma storeOK_chat (s : Store) (inp : UserInput) (u : Upstream)
    (hs : StoreOK s) : StoreOK (chat s inp u).2 := by
  obtain ⟨c, hc, hshape⟩ := chat_store_shape s inp u
  have hcOK : ConvOK c := by
    rcases hc with h | ⟨-, h⟩
    · exact hs _ (Store.find_mem h)
    · rw [h]
      exact convOK_init
  rcases hshape with h | ⟨l, -, h⟩
  · rw [h]
    exact hs
  · rw [h]
    exact storeOK_set hs (convOK_append c l hcOK)

/-- One full request preserves the store-wide invariant. -/
lemma storeOK_handle (s : Store) (r : RawRequest) (u : Upstream)
    (hs : StoreOK s) : StoreOK (handleRequest s r u).2 := by
  unfold handleRequest
  cases hp : parseUserInput r with
  | error e => exact hs
  | ok inp => exact storeOK_chat s inp u hs

/-- Every reachable state of the global mapping satisfies the invariant. -/
lemma reachable_storeOK {s : Store} (h : Reachable s) : StoreOK s := by
  induction h with
  | init => intro p hp; cases hp
  | step r u hs ih => exact storeOK_handle _ r u ih

/-- Any single request only ever appends to an existing session's history:
whatever the request and upstream behaviour, the old history is an initial
segment of the new one. -/
lemma handle_extends (s : Store) (r : RawRequest) (u : Upstream)
    (k : String) (c c' : Conversation)
    (hf : Store.find s k = some c)
    (hf' : Store.find (handleRequest s r u).2 k = some c') :
    ∃ t, c.messages ++ t = c'.messages := by
  unfold handleRequest at hf'
  rcases hq : parseUserInput r with e | inp
  · rw [hq] at hf'
    simp only at hf'
    rw [hf] at hf'
    refine ⟨[], ?_⟩
    cases hf'
    simp
  · rw [hq] at hf'
    simp only at hf'
    obtain ⟨c0, hc0, hshape⟩ := chat_store_shape s inp u
    rcases hshape with hsh | ⟨l, -, hsh⟩
    · rw [hsh, hf] at hf'
      refine ⟨[], ?_⟩
      cases hf'
      simp
    · rw [hsh] at hf'
      by_cases hk : inp.conversation_id = k
      · subst hk
        rw [Store.find_set_self] at hf'
        rcases hc0 with h0 | ⟨h0, -⟩
        · rw [hf] at h0
          cases h0
          refine ⟨l, ?_⟩
          cases hf'
          rfl
        · rw [h0] at hf
          cases hf
      · rw [Store.find_set_ne _ _ (fun he => hk (Eq.symm he))] at hf'
        rw [hf] at hf'
        refine ⟨[], ?_⟩
        cases hf'
        simp

/-- Demo request used to build a concrete reachable store state. -/
def demoReq : RawRequest :=
  ⟨some (JValue.jstr "hello"), none, some (JValue.jstr "k")⟩

/-- Demo upstream behaviour: one successful fragment. -/
def demoUp : Upstream := Except.ok [some "Hi"]

/-- Concrete store reached after one successful request from startup. -/
def demoStore : Store := (handleRequest [] demoReq demoUp).2

/-- The conversation stored under `"k"` in `demoStore`. -/
def demoConv : Conversation :=
  ⟨[systemPrompt, ⟨"user", "hello"⟩, ⟨"assistant", "Hi"⟩], true⟩

/-- The conversation under `"k"` after repeating `demoReq` once more. -/
def demoConv2 : Conversation :=
  ⟨[systemPrompt, ⟨"user", "hello"⟩, ⟨"assistant", "Hi"⟩,
    ⟨"user", "hello"⟩, ⟨"assistant", "Hi"⟩], true⟩

/-- Demo script of two successful calls for the N-call witness. -/
def demoCalls : List CallSpec :=
  [⟨"user", "hi", [some "Hel", some "lo"]⟩,
   ⟨"user", "again", [none, some "!"]⟩]

/-- C1: starting from an unseen session key, N submitMessage calls whose
upstream completions all succeed leave the session's history as the system
entry followed by the N user/assistant pairs in call order — in particular
of length 1 + 2N, strictly alternating after the system entry, each pair
being the submitted message (with the request's role) followed by an
assistant message carrying the assembled upstream response. (For N = 0 no
call is made, so no session exists; the theorem covers every N ≥ 1.) -/
theorem submitMessage_sequence_shape (store : Store) (key : String)
    (calls : List CallSpec) (h : Store.find store key = none)
    (hne : calls ≠ []) :
    ∃ conv : Conversation,
      Store.find (runCalls store key calls) key = some conv ∧
      conv.messages = systemPrompt :: turnsOf calls ∧
      conv.messages.length = 1 + 2 * calls.length ∧
      conv.active = true := by
  cases calls with
  | nil => exact absurd rfl hne
  | cons c rest =>
      have h1 := chat_create_find store key c.message c.role c.fragments h
      have h2 := runCalls_loop key rest
        (chat store ⟨c.message, c.role, key⟩ (Except.ok c.fragments)).2
        ([systemPrompt] ++ turnOf c) (by simpa [turnOf] using h1)
      refine ⟨⟨systemPrompt :: turnsOf (c :: rest), true⟩, ?_, rfl, ?_, rfl⟩
      · simp only [runCalls, List.foldl_cons]
        simpa [runCalls, turnsOf, List.append_assoc] using h2
      · simp only [List.length_cons, turnsOf_length]
        omega

/-- C1 witness: two concrete calls on a fresh key. -/
theorem submitMessage_sequence_shape_witness :
    ∃ conv : Conversation,
      Store.find (runCalls [] "s1" demoCalls) "s1" = some conv ∧
      conv.messages = systemPrompt :: turnsOf demoCalls ∧
      conv.messages.length = 1 + 2 * demoCalls.length ∧
      conv.active = true :=
  submitMessage_sequence_shape [] "s1" demoCalls rfl (by decide)

/-- C2: when the upstream completion fails, the handler signals the 500
upstream error whose detail embeds the upstream failure description, and
the session keeps exactly the user-turn append — no assistant turn, no
rollback. -/
theorem upstream_failure_keeps_user_turn (store : Store)
    (key m r emsg : String) (msgs : List Message)
    (h : Store.find store key = some ⟨msgs, true⟩) :
    (chat store ⟨m, r, key⟩ (Except.error emsg)).1 =
      RequestOutcome.httpError 500
        (strHTTPException 500 ("Error with Groq API: " ++ emsg)) ∧
    Store.find (chat store ⟨m, r, key⟩ (Except.error emsg)).2 key =
      some ⟨msgs ++ [⟨r, m⟩], true⟩ := by
  constructor
  · simp [chat, get_or_create_found h, query_groq_api]
  · simp [chat, get_or_create_found h, query_groq_api, Store.find_set_self]

/-- C2 witness: a failing upstream call against a session holding only the
system prompt. -/
theorem upstream_failure_keeps_user_turn_witness :
    (chat [("k", Conversation.init)] ⟨"hi", "user", "k"⟩
        (Except.error "boom")).1 =
      RequestOutcome.httpError 500
        (strHTTPException 500 ("Error with Groq API: " ++ "boom")) ∧
    Store.find (chat [("k", Conversation.init)] ⟨"hi", "user", "k"⟩
        (Except.error "boom")).2 "k" =
      some ⟨[systemPrompt] ++ [⟨"user", "hi"⟩], true⟩ :=
  upstream_failure_keeps_user_turn [("k", Conversation.init)] "k" "hi" "user"
    "boom" [systemPrompt] rfl

/-- C3 counterexample: the pydantic model only requires `conversation_id`
to be a string, so the empty string is accepted: the request is processed
(outcome is a success, not a validation error) and a session keyed by the
empty string is created — a side effect. -/
theorem empty_conversation_id_accepted :
    (handleRequest [] ⟨some (JValue.jstr "hi"), none, some (JValue.jstr "")⟩
        (Except.ok [])).1 = RequestOutcome.success "" "" ∧
    (handleRequest [] ⟨some (JValue.jstr "hi"), none, some (JValue.jstr "")⟩
        (Except.ok [])).1 ≠ RequestOutcome.validationError ∧
    (handleRequest [] ⟨some (JValue.jstr "hi"), none, some (JValue.jstr "")⟩
        (Except.ok [])).2 ≠ ([] : Store) := by
  refine ⟨rfl, ?_, ?_⟩ <;> decide

/-- C3 (amended): the session key is required to be a string — a request
whose `conversation_id` is absent or not a string is rejected with a
`ValidationError` before any side effect occurs (the store is unchanged);
an empty string, however, is accepted. -/
theorem conversation_id_must_be_string (store : Store) (r : RawRequest)
    (u : Upstream)
    (h : r.conversation_id = none ∨ r.conversation_id = some JValue.jother) :
    handleRequest store r u = (RequestOutcome.validationError, store) :=
  handle_bad_cid store r u h

/-- C3 witness: a non-string `conversation_id` is rejected, store intact. -/
theorem conversation_id_must_be_string_witness :
    handleRequest [] ⟨some (JValue.jstr "hi"), none, some JValue.jother⟩
        (Except.ok []) = (RequestOutcome.validationError, []) :=
  conversation_id_must_be_string []
    ⟨some (JValue.jstr "hi"), none, some JValue.jother⟩ (Except.ok [])
    (Or.inr rfl)

/-- C4: `get_or_create_conversation` is a total function (it never fails),
and on a never-seen key it returns a session whose history is exactly the
one system-role entry and whose `active` flag is true, storing it under
the key. -/
theorem get_or_create_fresh (store : Store) (k : String)
    (h : Store.find store k = none) :
    (get_or_create_conversation store k).1.messages = [systemPrompt] ∧
    systemPrompt.role = "system" ∧
    (get_or_create_conversation store k).1.active = true ∧
    Store.find (get_or_create_conversation store k).2 k =
      some (get_or_create_conversation store k).1 := by
  rw [get_or_create_missing h]
  exact ⟨rfl, rfl, rfl, Store.find_set_self store k Conversation.init⟩

/-- C4 witness: creation on the empty store. -/
theorem get_or_create_fresh_witness :
    (get_or_create_conversation [] "k").1.messages = [systemPrompt] ∧
    systemPrompt.role = "system" ∧
    (get_or_create_conversation [] "k").1.active = true ∧
    Store.find (get_or_create_conversation [] "k").2 "k" =
      some (get_or_create_conversation [] "k").1 :=
  get_or_create_fresh [] "k" rfl

/-- C5: a request missing `conversation_id` is rejected with the
validation error and the whole session mapping is returned unchanged: no
key is created and no session history is modified. -/
theorem missing_conversation_id_rejected (store : Store) (r : RawRequest)
    (u : Upstream) (h : r.conversation_id = none) :
    handleRequest store r u = (RequestOutcome.validationError, store) :=
  handle_bad_cid store r u (Or.inl h)

/-- C5 witness: a request without `conversation_id` against a store that
already holds a session leaves that store exactly as it was. -/
theorem missing_conversation_id_rejected_witness :
    handleRequest [("a", Conversation.init)]
        ⟨some (JValue.jstr "hi"), none, none⟩ (Except.ok [some "x"]) =
      (RequestOutcome.validationError, [("a", Conversation.init)]) :=
  missing_conversation_id_rejected [("a", Conversation.init)]
    ⟨some (JValue.jstr "hi"), none, none⟩ (Except.ok [some "x"]) rfl

/-- C6: against a session whose `active` flag is false, every
`submitMessage` call fails with the 400 client error and the store —
hence the session's history — is returned unchanged; the right-hand side
does not depend on the upstream `u`, so no external call is consulted. -/
theorem closed_session_rejected (store : Store) (key m r : String)
    (conv : Conversation) (u : Upstream)
    (h : Store.find store key = some conv) (hA : conv.active = false) :
    chat store ⟨m, r, key⟩ u =
      (RequestOutcome.httpError 400
        "The chat session has ended. Please start a new session.", store) := by
  simp [chat, get_or_create_found h, hA]

/-- C6 witness: a manually deactivated session rejects a call. -/
theorem closed_session_rejected_witness :
    chat [("k", ⟨[systemPrompt], false⟩)] ⟨"hi", "user", "k"⟩
        (Except.ok [some "ignored"]) =
      (RequestOutcome.httpError 400
        "The chat session has ended. Please start a new session.",
        [("k", ⟨[systemPrompt], false⟩)]) :=
  closed_session_rejected [("k", ⟨[systemPrompt], false⟩)] "k" "hi" "user"
    ⟨[systemPrompt], false⟩ (Except.ok [some "ignored"]) rfl rfl

/-- C7: the fragments yielded by the completion stream are concatenated in
arrival order into the stored assistant content; in particular the
fragments `["Hel", "lo", " there"]` yield the stored string
`"Hello there"`. -/
theorem fragments_concatenated (store : Store) (key m r : String)
    (msgs : List Message) (frags : List (Option String))
    (h : Store.find store key = some ⟨msgs, true⟩) :
    Store.find (chat store ⟨m, r, key⟩ (Except.ok frags)).2 key =
      some ⟨msgs ++ [⟨r, m⟩, ⟨"assistant", assembleResponse frags⟩], true⟩ ∧
    assembleResponse frags = concatStrings (frags.map fun o => o.getD "") ∧
    assembleResponse [some "Hel", some "lo", some " there"] = "Hello there" :=
  ⟨chat_step_find store key m r msgs frags h, assembleResponse_eq frags, rfl⟩

/-- C7 witness: the spec's concrete fragment stream stored verbatim. -/
theorem fragments_concatenated_witness :
    Store.find (chat [("k", Conversation.init)] ⟨"hi", "user", "k"⟩
        (Except.ok [some "Hel", some "lo", some " there"])).2 "k" =
      some ⟨[systemPrompt] ++ [⟨"user", "hi"⟩, ⟨"assistant",
        assembleResponse [some "Hel", some "lo", some " there"]⟩], true⟩ ∧
    assembleResponse [some "Hel", some "lo", some " there"] =
      concatStrings ([some "Hel", some "lo", some " there"].map
        fun o => o.getD "") ∧
    assembleResponse [some "Hel", some "lo", some " there"] = "Hello there" :=
  fragments_concatenated [("k", Conversation.init)] "k" "hi" "user"
    [systemPrompt] [some "Hel", some "lo", some " there"] rfl

/-- C8: in every reachable state every stored session's history starts with
the system-role creation entry, and any further request only appends to
that history (the old history is an initial segment of the new one). -/
theorem history_head_system_and_append_only (s : Store) (hs : Reachable s)
    (k : String) (c : Conversation) (hf : Store.find s k = some c)
    (r : RawRequest) (u : Upstream) (c' : Conversation)
    (hf' : Store.find (handleRequest s r u).2 k = some c') :
    c.messages.head? = some systemPrompt ∧
    systemPrompt.role = "system" ∧
    ∃ t, c.messages ++ t = c'.messages :=
  ⟨(reachable_storeOK hs _ (Store.find_mem hf)).2, rfl,
    handle_extends s r u k c c' hf hf'⟩

/-- C8 witness: the concrete reachable store and one further request. -/
theorem history_head_system_and_append_only_witness :
    demoConv.messages.head? = some systemPrompt ∧
    systemPrompt.role = "system" ∧
    ∃ t, demoConv.messages ++ t = demoConv2.messages :=
  history_head_system_and_append_only demoStore
    (Reachable.step demoReq demoUp Reachable.init) "k" demoConv (by decide)
    demoReq demoUp demoConv2 (by decide)

/-- C9: the `active` flag starts true at creation and no exposed operation
ever sets it false: in every reachable state every stored session has
`active = true`. -/
theorem active_flag_invariant (s : Store) (hs : Reachable s) (k : String)
    (c : Conversation) (hf : Store.find s k = some c) :
    Conversation.init.active = true ∧ c.active = true :=
  ⟨rfl, (reachable_storeOK hs _ (Store.find_mem hf)).1⟩

/-- C9 witness: the session in the concrete reachable store is active. -/
theorem active_flag_invariant_witness :
    Conversation.init.active = true ∧ demoConv.active = true :=
  active_flag_invariant demoStore
    (Reachable.step demoReq demoUp Reachable.init) "k" demoConv (by decide)

/-- C10: a fragment whose delta content is absent contributes the empty
string instead of failing: the assembled response is exactly the in-order
concatenation of the non-absent fragment contents, and a leading absent
fragment leaves the result unchanged. -/
theorem absent_fragments_skipped (frags : List (Option String)) :
    assembleResponse frags = concatStrings (frags.filterMap id) ∧
    assembleResponse (none :: frags) = assembleResponse frags := by
  constructor
  · rw [assembleResponse_eq, concatStrings_filterMap]
  · rw [assembleResponse_eq, assembleResponse_eq]
    simp only [List.map_cons, Option.getD_none, concatStrings]
    exact String.empty_append _
